import Mathlib

/- Shallow embedding of the GuitCam in-browser video recorder
(src/src/VideoRecorder.jsx and the earlier variant src/unnamed/part_000).

JavaScript values are modelled as follows: strings are Lean Strings
(the only falsy JS string is the empty one), machine numbers that only ever
hold small integers are Nat, amplitude samples and millisecond timestamps
are rationals (the code compares them against exact decimal constants such
as 0.98 and 900), and undefined/null slots are Options.  The stateful
component code is embedded as explicit state passing over a Session record;
runtime behaviour that the code probes (capability probe answers, whether a
MediaRecorder construction throws) is passed in as an environment function. -/

/-- JS string short-circuit or: a || b, where the only falsy string is "". -/
def strOr (a b : String) : String := if a = "" then b else a

/-- JS s || undefined, as used for the MediaRecorder mimeType option. -/
def jsOrUndefined (s : String) : Option String := if s = "" then none else some s

/-- From the source, pad2(n): String(n).padStart(2, "0") on a Nat. -/
def pad2 (n : Nat) : String :=
  let s := toString n
  if s.length < 2 then "0" ++ s else s

/-- Spec-side two-digit zero padding, following the words of the spec:
a field below 10 is prefixed with one zero, otherwise printed as is. -/
def zeroPad2 (n : Nat) : String := (if n < 10 then "0" else "") ++ toString n

/-- The components a JS Date exposes through getFullYear / getMonth /
getDate / getHours / getMinutes / getSeconds; month is 0-based as in JS. -/
structure JsDate where
  fullYear : Nat
  month : Nat
  date : Nat
  hours : Nat
  minutes : Nat
  seconds : Nat
deriving DecidableEq, Repr

/-- From the source, makeTimestampedFilename(ext) evaluated at date d. -/
def makeTimestampedFilename (d : JsDate) (ext : String) : String :=
  "rec-" ++ toString d.fullYear ++ pad2 (d.month + 1) ++ pad2 d.date ++
    "-" ++ pad2 d.hours ++ pad2 d.minutes ++ pad2 d.seconds ++ "." ++ ext

/-- JS String.prototype.toLowerCase, ASCII case folding as Char.toLower. -/
def jsToLowerCase (s : String) : String := ⟨s.data.map Char.toLower⟩

/-- JS String.prototype.includes: substring containment test. -/
def jsIncludes (s sub : String) : Bool :=
  s.data.tails.any fun t => sub.data.isPrefixOf t

/-- From the source, guessExtensionFromMime: a truthy mimeType whose
lower-cased form contains "mp4" maps to "mp4", anything else to "webm". -/
def guessExtensionFromMime (mimeType : String) : String :=
  if mimeType ≠ "" ∧ jsIncludes (jsToLowerCase mimeType) "mp4" = true then "mp4" else "webm"

/-- Outcome of one call to the runtime capability probe
window.MediaRecorder.isTypeSupported(t): it answers true, answers false, or
throws (which also covers the probe method being absent: calling it throws). -/
inductive ProbeOutcome where
  | supported
  | unsupported
  | raises
deriving DecidableEq, Repr

/-- The candidate list from pickMimeType, in source order. -/
def mimeCandidates : List String :=
  ["video/mp4;codecs=avc1.42E01E,mp4a.40.2",
   "video/mp4",
   "video/webm;codecs=vp9,opus",
   "video/webm;codecs=vp8,opus",
   "video/webm"]

/-- The for-loop of pickMimeType over the remaining candidates: a candidate is
returned when window.MediaRecorder is truthy and the probe answers true; a
thrown probe call is caught and the loop continues with the next candidate. -/
def pickMimeTypeGo (hasMR : Bool) (probe : String → ProbeOutcome) :
    List String → String
  | [] => ""
  | t :: ts =>
    if hasMR = true ∧ probe t = ProbeOutcome.supported then t
    else pickMimeTypeGo hasMR probe ts

/-- From the source, pickMimeType, parameterised by the runtime environment:
hasMR is the truthiness of window.MediaRecorder, probe the capability probe. -/
def pickMimeType (hasMR : Bool) (probe : String → ProbeOutcome) : String :=
  pickMimeTypeGo hasMR probe mimeCandidates

/-- One rung of the bitrate ladder passed to the MediaRecorder constructor. -/
structure BitrateOpts where
  videoBitsPerSecond : Nat
  audioBitsPerSecond : Nat
deriving DecidableEq, Repr

/-- From the source, the bitrateAttempts array in startRecording. -/
def bitrateAttempts : List BitrateOpts :=
  [⟨12000000, 192000⟩, ⟨8000000, 160000⟩, ⟨5000000, 128000⟩, ⟨2500000, 128000⟩]

/-- The for-loop over bitrateAttempts in startRecording.  ok a says whether
constructing a MediaRecorder at rung a does not throw.  Returns the rung
accepted (none when every construction threw) together with the list of
rungs actually attempted, in attempt order. -/
def ladderGo (ok : BitrateOpts → Bool) :
    List BitrateOpts → Option BitrateOpts × List BitrateOpts
  | [] => (none, [])
  | a :: rest =>
    if ok a then (some a, [a])
    else
      let r := ladderGo ok rest
      (r.1, a :: r.2)

/-- The full ladder walk of startRecording over bitrateAttempts. -/
def attemptBitrateLadder (ok : BitrateOpts → Bool) :
    Option BitrateOpts × List BitrateOpts :=
  ladderGo ok bitrateAttempts

/-- The options object handed to the MediaRecorder constructor that
startRecording settles on: mimeType is chosenMime || undefined, the bitrate
fields are the accepted rung, or absent after total ladder failure. -/
structure RecorderConfig where
  mimeType : Option String
  videoBitsPerSecond : Option Nat
  audioBitsPerSecond : Option Nat
deriving DecidableEq, Repr

/-- From the source: the construction startRecording finally performs, given
the chosen mime string and the construction environment ok. -/
def startRecorderConfig (chosenMime : String) (ok : BitrateOpts → Bool) :
    RecorderConfig :=
  match (attemptBitrateLadder ok).1 with
  | some a => ⟨jsOrUndefined chosenMime, some a.videoBitsPerSecond, some a.audioBitsPerSecond⟩
  | none => ⟨jsOrUndefined chosenMime, none, none⟩

/- ---------------------------------------------------------------------
Level meter (startMeterLoop): per-tick peak / sum-of-squares computation. -/

/-- The values one meter tick computes from the analyser buffer: peak
absolute amplitude and the running sum of squares. -/
structure MeterRead where
  peak : ℚ
  sumSq : ℚ
deriving DecidableEq, Repr

/-- Loop body of the float branch of the meter tick: av = |v|; if av exceeds
the running peak it replaces it; v * v is added to the running sum. -/
def floatStep (acc : ℚ × ℚ) (v : ℚ) : ℚ × ℚ :=
  (if |v| > acc.1 then |v| else acc.1, acc.2 + v * v)

/-- Loop body of the byte branch: v = (byteBuf[i] - 128) / 128, then the
same peak / sum-of-squares update as the float branch. -/
def byteStep (acc : ℚ × ℚ) (b : Nat) : ℚ × ℚ :=
  let v : ℚ := ((b : ℚ) - 128) / 128
  (if |v| > acc.1 then |v| else acc.1, acc.2 + v * v)

/-- The float branch of one meter tick over the whole analyser buffer,
starting from localPeak = 0, sumSq = 0. -/
def floatLoopRead (buf : List ℚ) : MeterRead :=
  let acc := buf.foldl floatStep (0, 0)
  ⟨acc.1, acc.2⟩

/-- The byte branch of one meter tick over the whole analyser buffer. -/
def byteLoopRead (buf : List Nat) : MeterRead :=
  let acc := buf.foldl byteStep (0, 0)
  ⟨acc.1, acc.2⟩

/-- The analyser exposes either float samples (getFloatTimeDomainData
present) or 8-bit samples; the tick allocates exactly one of the buffers. -/
inductive TimeDomainData where
  | floats (buf : List ℚ)
  | bytes (buf : List Nat)

/-- One meter tick dispatching on the available sample representation. -/
def tickRead : TimeDomainData → MeterRead
  | TimeDomainData.floats buf => floatLoopRead buf
  | TimeDomainData.bytes buf => byteLoopRead buf

/-- localRms squared: the code computes Math.sqrt of this quantity,
sumSq / Math.max(1, analyser.fftSize). -/
def meanSquare (sumSq : ℚ) (fftSize : Nat) : ℚ := sumSq / (max 1 fftSize : Nat)

/-- From the source, rmsPct = Math.max(0, Math.min(100, rms * 100)). -/
def rmsPct (rms : ℚ) : ℚ := max 0 (min 100 (rms * 100))

/-- From the source, peakPct = Math.max(0, Math.min(100, peak * 100)). -/
def peakPct (peak : ℚ) : ℚ := max 0 (min 100 (peak * 100))

/- Clip detection state of the meter loop. -/

/-- One sampled instant of the meter loop: now = performance.now() at the
tick, peak = the localPeak the tick computed. -/
structure MeterTick where
  now : ℚ
  peak : ℚ
deriving DecidableEq, Repr

/-- From the source: if (localPeak >= 0.98) lastClipAtMsRef.current = now. -/
def updateLastClip (lastClipAtMs : ℚ) (t : MeterTick) : ℚ :=
  if 98 / 100 ≤ t.peak then t.now else lastClipAtMs

/-- From the source: clipHold = now - lastClipAtMsRef.current < 900,
computed after the clip-event update of the same tick. -/
def clipHoldAfter (lastClipAtMs : ℚ) (t : MeterTick) : Bool :=
  decide (t.now - updateLastClip lastClipAtMs t < 900)

/-- The lastClipAtMs reference threaded through a run of meter ticks. -/
def runMeterTicks (lastClipAtMs : ℚ) (ts : List MeterTick) : ℚ :=
  ts.foldl updateLastClip lastClipAtMs

/- dBFS display (ampToDbfs and formatDb). -/

/-- The value ampToDbfs returns: negative infinity, or the finite real
20 * log10 amp for a positive amplitude amp, carried symbolically by that
amplitude (its floating-point digits are outside this model). -/
inductive DbfsValue where
  | negInf
  | finiteDb (amp : ℚ)
deriving DecidableEq, Repr

/-- From the source, ampToDbfs: a non-positive (or non-finite) amplitude
maps to Number.NEGATIVE_INFINITY, a positive one to 20 * Math.log10(amp). -/
def ampToDbfs (amp : ℚ) : DbfsValue :=
  if amp ≤ 0 then DbfsValue.negInf else DbfsValue.finiteDb amp

/-- From the source, formatDb: a non-finite value renders as the string
"-∞"; a finite value renders as its one-decimal numeric form, returned here
as none because its digits (floating-point toFixed of a logarithm) are
outside this model; the claims only concern the non-finite branch. -/
def formatDb : DbfsValue → Option String
  | DbfsValue.negInf => some "-∞"
  | DbfsValue.finiteDb _ => none

/- ---------------------------------------------------------------------
Capture session state: recorder lifecycle, chunk buffer, finalization. -/

/-- MediaRecorder.state values. -/
inductive RecState where
  | inactive
  | recording
  | paused
deriving DecidableEq, Repr

/-- One dataavailable chunk: its byte size and an identifying payload. -/
structure Chunk where
  size : Nat
  payload : Nat
deriving DecidableEq, Repr

/-- new Blob(parts, { type }) as the finalizer builds it. -/
structure BlobV where
  parts : List Chunk
  type : String
deriving DecidableEq, Repr

/-- One call to the external delivery collaborator (triggerDownload):
the blob handed over, the mime string given to triggerDownload, and the
filename it derives. -/
structure Delivery where
  blob : BlobV
  mimeType : String
  filename : String
deriving DecidableEq, Repr

/-- From the source, triggerDownload(blob, mimeType) at wall-clock date d:
derives the extension from the mime string, the filename from the date. -/
def triggerDownload (d : JsDate) (blob : BlobV) (mimeType : String) : Delivery :=
  ⟨blob, mimeType, makeTimestampedFilename d (guessExtensionFromMime mimeType)⟩

/-- The component state the recorder lifecycle mutates: recorderRef
(none when null) with its reported state and mimeType, chunksRef, the
deliveries emitted so far, the isRecording flag, the timer, the error
message, and a count of recorder.stop() calls actually issued. -/
structure Session where
  recorder : Option RecState
  recorderMimeType : String
  chosenMime : String
  chunks : List Chunk
  deliveries : List Delivery
  isRecording : Bool
  timerRunning : Bool
  error : String
  stopsIssued : Nat
deriving DecidableEq, Repr

/-- From the source, recorder.ondataavailable: a present chunk of positive
size is appended to chunksRef, anything else is discarded. -/
def onDataAvailable (ev : Option Chunk) (s : Session) : Session :=
  match ev with
  | some c => if 0 < c.size then { s with chunks := s.chunks ++ [c] } else s
  | none => s

/-- finalMime of the onstop handler: chosenMime || recorder.mimeType || "". -/
def sessionFinalMime (s : Session) : String :=
  strOr s.chosenMime (strOr s.recorderMimeType "")

/-- The delivery the onstop handler emits: the blob concatenates the
buffered chunks and is typed finalMime || "video/webm"; triggerDownload
itself receives finalMime. -/
def onStopDelivery (d : JsDate) (s : Session) : Delivery :=
  triggerDownload d ⟨s.chunks, strOr (sessionFinalMime s) "video/webm"⟩ (sessionFinalMime s)

/-- From the source, the recorder.onstop handler (the finalizer): stop the
timer, clear isRecording, snapshot the buffered chunks into one blob, empty
the chunk buffer, then invoke delivery.  deliverOk = false models delivery
itself failing after the buffer was already emptied. -/
def onStop (deliverOk : Bool) (d : JsDate) (s : Session) : Session :=
  let s1 := { s with timerRunning := false, isRecording := false, chunks := [] }
  if deliverOk then
    { s1 with deliveries := s1.deliveries ++ [onStopDelivery d s] }
  else s1

/-- From the source, stopRecording: recorder.stop() is issued only when a
recorder exists and reports a non-inactive state; the runtime then fires the
onstop handler (modelled synchronously; the spec guarantees it fires after
all chunk deliveries).  Everything is inside try/catch, so no error ever
surfaces. -/
def stopRecording (deliverOk : Bool) (d : JsDate) (s : Session) : Session :=
  match s.recorder with
  | some st =>
    if st ≠ RecState.inactive then
      onStop deliverOk d
        { s with recorder := some RecState.inactive, stopsIssued := s.stopsIssued + 1 }
    else s
  | none => s

/- ---------------------------------------------------------------------
Sanity examples. -/

example : pickMimeType true (fun _ => ProbeOutcome.raises) = "" := by decide
example : pickMimeType false (fun _ => ProbeOutcome.supported) = "" := by decide
example :
    pickMimeType true
      (fun t => if t = "video/mp4" then ProbeOutcome.supported else ProbeOutcome.unsupported) =
    "video/mp4" := by decide
example : guessExtensionFromMime "video/MP4" = "mp4" := by decide
example : guessExtensionFromMime "" = "webm" := by decide
example : guessExtensionFromMime "video/webm;codecs=vp9,opus" = "webm" := by decide
example : makeTimestampedFilename ⟨2026, 9, 12, 1, 2, 3⟩ "webm" = "rec-20261012-010203.webm" := by
  decide
example : (attemptBitrateLadder (fun _ => false)).2 = bitrateAttempts := by decide
example : (attemptBitrateLadder (fun a => a.videoBitsPerSecond = 5000000)).1 =
    some ⟨5000000, 128000⟩ := by decide
example : formatDb (ampToDbfs 0) = some "-∞" := by norm_num [ampToDbfs, formatDb]

/- ---------------------------------------------------------------------
Helper lemmas. -/

lemma pickMimeTypeGo_eq_find (hasMR : Bool) (probe : String → ProbeOutcome)
    (ts : List String) :
    pickMimeTypeGo hasMR probe ts =
      if hasMR = true then
        (ts.find? fun t => decide (probe t = ProbeOutcome.supported)).getD ""
      else "" := by
  induction ts with
  | nil => cases hasMR <;> simp [pickMimeTypeGo]
  | cons t ts ih =>
    cases hasMR with
    | false => simp [pickMimeTypeGo, ih]
    | true =>
      by_cases h : probe t = ProbeOutcome.supported <;>
        simp [pickMimeTypeGo, h, List.find?, ih]

/-- C2: pickMimeType probes the candidates in the fixed source order
(MP4/H.264+AAC, bare MP4, WebM/VP9+Opus, WebM/VP8+Opus, bare WebM) and
returns the first candidate the capability probe reports supported; when no
candidate is reported supported — including when the probe throws on every
call (covering an absent probe) or MediaRecorder is missing — it returns
the empty string instead of failing. -/
theorem pickMimeType_first_supported (hasMR : Bool) (probe : String → ProbeOutcome) :
    (pickMimeType hasMR probe =
      if hasMR = true then
        (mimeCandidates.find? fun t => decide (probe t = ProbeOutcome.supported)).getD ""
      else "") ∧
    pickMimeType hasMR (fun _ => ProbeOutcome.raises) = "" ∧
    ((∀ t, probe t ≠ ProbeOutcome.supported) → pickMimeType hasMR probe = "") ∧
    mimeCandidates =
      ["video/mp4;codecs=avc1.42E01E,mp4a.40.2", "video/mp4",
       "video/webm;codecs=vp9,opus", "video/webm;codecs=vp8,opus", "video/webm"] := by
  refine ⟨pickMimeTypeGo_eq_find hasMR probe mimeCandidates, ?_, ?_, rfl⟩
  · cases hasMR <;> decide
  · intro h
    rw [pickMimeType, pickMimeTypeGo_eq_find]
    cases hasMR with
    | false => simp
    | true =>
      simp only [if_pos rfl]
      have : (mimeCandidates.find? fun t => decide (probe t = ProbeOutcome.supported)) = none := by
        rw [List.find?_eq_none]
        intro t _
        simpa using h t
      rw [this]
      rfl

/-- C2 witness: at a concrete probe supporting only VP8, the third-choice
candidate is returned, and the always-throwing probe yields "". -/
theorem pickMimeType_first_supported_witness :
    pickMimeType true
        (fun t => if t = "video/webm;codecs=vp8,opus" then ProbeOutcome.supported
          else ProbeOutcome.raises) =
      "video/webm;codecs=vp8,opus" ∧
    pickMimeType true (fun _ => ProbeOutcome.raises) = "" ∧
    pickMimeType true (fun _ => ProbeOutcome.unsupported) = "" := by
  refine ⟨?_, ?_, ?_⟩
  · have h := (pickMimeType_first_supported true
      (fun t => if t = "video/webm;codecs=vp8,opus" then ProbeOutcome.supported
        else ProbeOutcome.raises)).1
    rw [h]
    decide
  · exact (pickMimeType_first_supported true (fun _ => ProbeOutcome.raises)).2.1
  · exact (pickMimeType_first_supported true (fun _ => ProbeOutcome.unsupported)).2.2.1
      (fun _ => by decide)

/-- C1: startRecording attempts recorder construction along the four-rung
ladder (video 12, 8, 5, 2.5 Mbps paired with audio 192, 160, 128, 128 kbps)
strictly in descending order of video bitrate, each attempted rung being a
prefix of the ladder; the accepted rung is the first whose construction
does not throw; the 2.5 Mbps / 128 kbps floor rung is always among the
attempts when every rung fails (it is never skipped before giving up); and
exactly when all four rungs fail, the final construction carries the chosen
container/codec string and no explicit bitrate. -/
theorem startRecording_bitrate_ladder (ok : BitrateOpts → Bool) (chosenMime : String) :
    ((attemptBitrateLadder ok).2 <+: bitrateAttempts) ∧
    List.Chain' (fun a b => b.videoBitsPerSecond < a.videoBitsPerSecond)
      (attemptBitrateLadder ok).2 ∧
    (attemptBitrateLadder ok).1 = bitrateAttempts.find? ok ∧
    ((attemptBitrateLadder ok).1 = none →
      (attemptBitrateLadder ok).2 = bitrateAttempts ∧
        BitrateOpts.mk 2500000 128000 ∈ (attemptBitrateLadder ok).2) ∧
    (startRecorderConfig chosenMime ok).mimeType = jsOrUndefined chosenMime ∧
    ((startRecorderConfig chosenMime ok).videoBitsPerSecond = none ∧
        (startRecorderConfig chosenMime ok).audioBitsPerSecond = none ↔
      ∀ a ∈ bitrateAttempts, ok a = false) ∧
    (∀ a, (attemptBitrateLadder ok).1 = some a →
      (startRecorderConfig chosenMime ok).videoBitsPerSecond = some a.videoBitsPerSecond ∧
        (startRecorderConfig chosenMime ok).audioBitsPerSecond = some a.audioBitsPerSecond) := by
  cases h1 : ok ⟨12000000, 192000⟩ <;> cases h2 : ok ⟨8000000, 160000⟩ <;>
    cases h3 : ok ⟨5000000, 128000⟩ <;> cases h4 : ok ⟨2500000, 128000⟩ <;>
      simp_all [attemptBitrateLadder, bitrateAttempts, ladderGo, startRecorderConfig,
        jsOrUndefined, List.find?]

/-- C1 witness: when every rung's construction throws, all four rungs were
attempted, the floor rung among them, and the final construction has no
explicit bitrate. -/
theorem startRecording_bitrate_ladder_witness :
    ((attemptBitrateLadder (fun _ => false)).2 = bitrateAttempts ∧
      BitrateOpts.mk 2500000 128000 ∈ (attemptBitrateLadder (fun _ => false)).2) ∧
    ((startRecorderConfig "video/mp4" (fun _ => false)).videoBitsPerSecond = none ∧
      (startRecorderConfig "video/mp4" (fun _ => false)).audioBitsPerSecond = none) :=
  ⟨(startRecording_bitrate_ladder (fun _ => false) "video/mp4").2.2.2.1 (by decide),
   ((startRecording_bitrate_ladder (fun _ => false) "video/mp4").2.2.2.2.2.1).2
     (by decide)⟩

lemma jsIncludes_iff_substring (s sub : String) :
    jsIncludes s sub = true ↔ sub.data <:+: s.data := by
  simp only [jsIncludes, List.any_eq_true, List.mem_tails, List.isPrefixOf_iff_prefix,
    List.infix_iff_prefix_suffix]
  constructor
  · rintro ⟨t, h1, h2⟩
    exact ⟨t, h2, h1⟩
  · rintro ⟨t, h1, h2⟩
    exact ⟨t, h2, h1⟩

lemma pad2_eq_zeroPad2 : ∀ n < 100, pad2 n = zeroPad2 n ∧ (pad2 n).length = 2 := by
  decide

/-- C4: the finalized extension is "mp4" exactly when the media type
contains "mp4" case-insensitively and "webm" otherwise, and the filename is
rec-YYYYMMDD-HHMMSS.<ext> at the stop-time wall clock, with month, day,
hour, minute and second zero-padded to two digits. -/
theorem finalize_extension_and_filename (m ext : String) (d : JsDate)
    (hm : d.month + 1 ≤ 12) (hd : d.date ≤ 31) (hh : d.hours ≤ 23)
    (hmi : d.minutes ≤ 59) (hs : d.seconds ≤ 59) :
    (guessExtensionFromMime m = "mp4" ↔ "mp4".data <:+: (jsToLowerCase m).data) ∧
    (¬ "mp4".data <:+: (jsToLowerCase m).data → guessExtensionFromMime m = "webm") ∧
    ((pad2 (d.month + 1)).length = 2 ∧ (pad2 d.date).length = 2 ∧
      (pad2 d.hours).length = 2 ∧ (pad2 d.minutes).length = 2 ∧
      (pad2 d.seconds).length = 2) ∧
    makeTimestampedFilename d ext =
      "rec-" ++ toString d.fullYear ++ zeroPad2 (d.month + 1) ++ zeroPad2 d.date ++
        "-" ++ zeroPad2 d.hours ++ zeroPad2 d.minutes ++ zeroPad2 d.seconds ++
        "." ++ ext := by
  have hiff : guessExtensionFromMime m = "mp4" ↔ "mp4".data <:+: (jsToLowerCase m).data := by
    rw [guessExtensionFromMime]
    split
    · rename_i hcond
      simp only [true_iff]
      exact (jsIncludes_iff_substring (jsToLowerCase m) "mp4").1 hcond.2
    · rename_i hcond
      rw [not_and_or] at hcond
      constructor
      · intro habs
        exact absurd habs (by decide)
      · intro hinf
        have hne : m ≠ "" := by
          intro he
          subst he
          exact absurd (List.IsInfix.length_le hinf) (by decide)
        rcases hcond with hc | hc
        · exact absurd hne fun _ => hc (by simpa using hne)
        · exact absurd ((jsIncludes_iff_substring (jsToLowerCase m) "mp4").2 hinf) hc
  refine ⟨hiff, ?_, ?_, ?_⟩
  · intro hni
    rw [guessExtensionFromMime]
    split
    · rename_i hcond
      exact absurd ((jsIncludes_iff_substring (jsToLowerCase m) "mp4").1 hcond.2) hni
    · rfl
  · exact ⟨(pad2_eq_zeroPad2 _ (by omega)).2, (pad2_eq_zeroPad2 _ (by omega)).2,
      (pad2_eq_zeroPad2 _ (by omega)).2, (pad2_eq_zeroPad2 _ (by omega)).2,
      (pad2_eq_zeroPad2 _ (by omega)).2⟩
  · rw [makeTimestampedFilename, (pad2_eq_zeroPad2 _ (by omega : d.month + 1 < 100)).1,
      (pad2_eq_zeroPad2 _ (by omega : d.date < 100)).1,
      (pad2_eq_zeroPad2 _ (by omega : d.hours < 100)).1,
      (pad2_eq_zeroPad2 _ (by omega : d.minutes < 100)).1,
      (pad2_eq_zeroPad2 _ (by omega : d.seconds < 100)).1]

/-- C4 witness: a concrete capitalized MP4 media type and a concrete stop
date give the mp4 extension and the fully padded timestamp filename. -/
theorem finalize_extension_and_filename_witness :
    (guessExtensionFromMime "video/MP4" = "mp4" ↔
      "mp4".data <:+: (jsToLowerCase "video/MP4").data) ∧
    makeTimestampedFilename ⟨2026, 0, 5, 7, 8, 9⟩ "mp4" =
      "rec-" ++ toString 2026 ++ zeroPad2 1 ++ zeroPad2 5 ++ "-" ++ zeroPad2 7 ++
        zeroPad2 8 ++ zeroPad2 9 ++ "." ++ "mp4" :=
  ⟨(finalize_extension_and_filename "video/MP4" "mp4" ⟨2026, 0, 5, 7, 8, 9⟩
      (by decide) (by decide) (by decide) (by decide) (by decide)).1,
   (finalize_extension_and_filename "video/MP4" "mp4" ⟨2026, 0, 5, 7, 8, 9⟩
      (by decide) (by decide) (by decide) (by decide) (by decide)).2.2.2⟩

/-- C5: requesting stop while the underlying recorder is inactive (or no
recorder exists) is a no-op: the session is unchanged, so no error is set,
no further recorder stop is issued, and no finalize or delivery happens;
a double-stop after a completed stop issues exactly one recorder stop and
exactly one delivery in total. -/
lemma stopRecording_eq_self_of_inactive (dOk : Bool) (d : JsDate) (t : Session)
    (h : t.recorder = some RecState.inactive) : stopRecording dOk d t = t := by
  simp [stopRecording, h]

lemma stopRecording_eq_self_of_none (dOk : Bool) (d : JsDate) (t : Session)
    (h : t.recorder = none) : stopRecording dOk d t = t := by
  simp [stopRecording, h]

theorem stopRecording_inactive_noop (dOk1 dOk2 : Bool) (d1 d2 : JsDate) (s s2 : Session)
    (h : s.recorder = some RecState.inactive ∨ s.recorder = none)
    (h2 : s2.recorder = some RecState.recording) :
    stopRecording dOk1 d1 s = s ∧
    (stopRecording dOk2 d2 (stopRecording dOk1 d1 s2) = stopRecording dOk1 d1 s2 ∧
      (stopRecording dOk1 d1 s2).stopsIssued = s2.stopsIssued + 1 ∧
      (stopRecording true d1 s2).deliveries.length = s2.deliveries.length + 1 ∧
      (stopRecording dOk1 d1 s2).error = s2.error) := by
  constructor
  · rcases h with h | h
    · exact stopRecording_eq_self_of_inactive dOk1 d1 s h
    · exact stopRecording_eq_self_of_none dOk1 d1 s h
  · have hrec : ∀ dOk d, stopRecording dOk d s2 =
        onStop dOk d
          { s2 with recorder := some RecState.inactive, stopsIssued := s2.stopsIssued + 1 } := by
      intro dOk d
      simp [stopRecording, h2]
    have hafter : ∀ dOk d, (stopRecording dOk d s2).recorder = some RecState.inactive := by
      intro dOk d
      rw [hrec]
      cases dOk <;> simp [onStop]
    refine ⟨?_, ?_, ?_, ?_⟩
    · exact stopRecording_eq_self_of_inactive dOk2 d2 _ (hafter dOk1 d1)
    · rw [hrec]
      cases dOk1 <;> simp [onStop]
    · rw [hrec]
      simp [onStop]
    · rw [hrec]
      cases dOk1 <;> simp [onStop]

/-- C5 witness: a concrete already-stopped session is untouched by a stop
request, and a concrete recording session double-stopped delivers once. -/
theorem stopRecording_inactive_noop_witness :
    stopRecording true ⟨2026, 9, 12, 10, 0, 0⟩
        ⟨some RecState.inactive, "video/webm", "", [], [], false, false, "", 1⟩ =
      ⟨some RecState.inactive, "video/webm", "", [], [], false, false, "", 1⟩ ∧
    (stopRecording true ⟨2026, 9, 12, 10, 0, 0⟩
        (stopRecording true ⟨2026, 9, 12, 10, 0, 0⟩
          ⟨some RecState.recording, "", "video/webm", [⟨4, 1⟩], [], true, true, "", 0⟩) =
      stopRecording true ⟨2026, 9, 12, 10, 0, 0⟩
        ⟨some RecState.recording, "", "video/webm", [⟨4, 1⟩], [], true, true, "", 0⟩ ∧
      (stopRecording true ⟨2026, 9, 12, 10, 0, 0⟩
        ⟨some RecState.recording, "", "video/webm", [⟨4, 1⟩], [], true, true, "", 0⟩).stopsIssued =
        0 + 1 ∧
      (stopRecording true ⟨2026, 9, 12, 10, 0, 0⟩
        ⟨some RecState.recording, "", "video/webm", [⟨4, 1⟩], [], true, true, "", 0⟩).deliveries.length =
        ([] : List Delivery).length + 1 ∧
      (stopRecording true ⟨2026, 9, 12, 10, 0, 0⟩
        ⟨some RecState.recording, "", "video/webm", [⟨4, 1⟩], [], true, true, "", 0⟩).error = "") :=
  stopRecording_inactive_noop true true ⟨2026, 9, 12, 10, 0, 0⟩ ⟨2026, 9, 12, 10, 0, 0⟩
    ⟨some RecState.inactive, "video/webm", "", [], [], false, false, "", 1⟩
    ⟨some RecState.recording, "", "video/webm", [⟨4, 1⟩], [], true, true, "", 0⟩
    (Or.inl rfl) rfl

/-- A concrete completed session with one buffered chunk, used to exercise
the onstop finalizer directly. -/
def sampleStoppedSession : Session :=
  ⟨some RecState.inactive, "video/webm", "", [⟨4, 1⟩], [], false, false, "", 1⟩

/-- A concrete wall-clock date for the finalizer runs. -/
def sampleDate : JsDate := ⟨2026, 9, 12, 10, 30, 0⟩

/-- C3 counterexample: running the onstop finalizer a second time on the
same completed session DOES re-emit a delivery call (the handler invokes
triggerDownload unconditionally, with an empty chunk list), so the claim
that a second finalize does not re-emit a delivery call is false. -/
theorem onstop_second_finalize_reemits_delivery :
    (onStop true sampleDate sampleStoppedSession).deliveries.length = 1 ∧
    (onStop true sampleDate (onStop true sampleDate sampleStoppedSession)).deliveries.length
      = 2 := by
  constructor <;> rfl

/-- C3 (amended): the onstop finalizer concatenates the buffered chunks in
arrival order into one blob and empties the chunk buffer before invoking
delivery, so the buffer is empty after finalize even when delivery itself
fails; a second finalize on the same completed session finds an empty
buffer — but it does emit a further delivery call, whose blob carries no
chunks. -/
theorem onstop_finalize_buffer_state (deliverOk : Bool) (d1 d2 : JsDate) (s : Session)
    (c : Chunk) (hc : 0 < c.size) :
    (onDataAvailable (some c) s).chunks = s.chunks ++ [c] ∧
    (onStop deliverOk d1 s).chunks = [] ∧
    (onStopDelivery d1 s).blob.parts = s.chunks ∧
    (onStop true d1 s).deliveries = s.deliveries ++ [onStopDelivery d1 s] ∧
    (onStop false d1 s).deliveries = s.deliveries ∧
    (onStop true d2 (onStop true d1 s)).chunks = [] ∧
    (onStop true d2 (onStop true d1 s)).deliveries.length = s.deliveries.length + 2 ∧
    (onStopDelivery d2 (onStop true d1 s)).blob.parts = [] := by
  refine ⟨?_, ?_, rfl, ?_, ?_, ?_, ?_, ?_⟩
  · simp [onDataAvailable, hc]
  · cases deliverOk <;> simp [onStop]
  · simp [onStop]
  · simp [onStop]
  · simp [onStop, onStopDelivery]
  · simp [onStop]
  · simp [onStop, onStopDelivery, triggerDownload]

/-- C3 witness: the amended statement at the concrete one-chunk session. -/
theorem onstop_finalize_buffer_state_witness :
    (onDataAvailable (some ⟨7, 2⟩) sampleStoppedSession).chunks =
      sampleStoppedSession.chunks ++ [⟨7, 2⟩] ∧
    (onStop false sampleDate sampleStoppedSession).chunks = [] ∧
    (onStop true sampleDate (onStop true sampleDate sampleStoppedSession)).chunks = [] :=
  ⟨(onstop_finalize_buffer_state false sampleDate sampleDate sampleStoppedSession
      ⟨7, 2⟩ (by decide)).1,
   (onstop_finalize_buffer_state false sampleDate sampleDate sampleStoppedSession
      ⟨7, 2⟩ (by decide)).2.1,
   (onstop_finalize_buffer_state false sampleDate sampleDate sampleStoppedSession
      ⟨7, 2⟩ (by decide)).2.2.2.2.2.1⟩

/-- C9: when negotiation produced no codec string and the recorder reports
no media type, finalMime is empty, the blob is typed with the default
"video/webm" and the filename gets the webm extension; and in general the
blob handed to delivery never carries an empty type tag. -/
theorem finalize_default_media_type (d : JsDate) (s t : Session)
    (h1 : s.chosenMime = "") (h2 : s.recorderMimeType = "") :
    sessionFinalMime s = "" ∧
    (onStopDelivery d s).blob.type = "video/webm" ∧
    (onStopDelivery d s).filename = makeTimestampedFilename d "webm" ∧
    (onStop true d s).deliveries = s.deliveries ++ [onStopDelivery d s] ∧
    (onStopDelivery d t).blob.type ≠ "" := by
  have hfin : sessionFinalMime s = "" := by
    simp [sessionFinalMime, strOr, h1, h2]
  refine ⟨hfin, ?_, ?_, by simp [onStop], ?_⟩
  · simp [onStopDelivery, triggerDownload, hfin, strOr]
  · simp [onStopDelivery, triggerDownload, hfin, strOr, guessExtensionFromMime]
  · simp only [onStopDelivery, triggerDownload]
    rw [strOr]
    split
    · decide
    · rename_i hne
      simpa using hne

/-- C9 witness: the concrete fully-default session delivers a blob typed
video/webm and a .webm filename. -/
theorem finalize_default_media_type_witness :
    (onStopDelivery sampleDate
        ⟨some RecState.inactive, "", "", [⟨4, 1⟩], [], false, false, "", 1⟩).blob.type =
      "video/webm" ∧
    (onStopDelivery sampleDate
        ⟨some RecState.inactive, "", "", [⟨4, 1⟩], [], false, false, "", 1⟩).filename =
      makeTimestampedFilename sampleDate "webm" :=
  ⟨(finalize_default_media_type sampleDate
      ⟨some RecState.inactive, "", "", [⟨4, 1⟩], [], false, false, "", 1⟩
      sampleStoppedSession rfl rfl).2.1,
   (finalize_default_media_type sampleDate
      ⟨some RecState.inactive, "", "", [⟨4, 1⟩], [], false, false, "", 1⟩
      sampleStoppedSession rfl rfl).2.2.1⟩

lemma byteFold_eq_floatFold (buf : List Nat) :
    ∀ acc : ℚ × ℚ, buf.foldl byteStep acc =
      (buf.map fun s : Nat => ((s : ℚ) - 128) / 128).foldl floatStep acc := by
  induction buf with
  | nil =>
    intro acc
    rfl
  | cons b bs ih =>
    intro acc
    simp only [List.map_cons, List.foldl_cons]
    rw [show floatStep acc (((b : ℚ) - 128) / 128) = byteStep acc b from rfl]
    exact ih (byteStep acc b)

lemma byteLoop_eq_floatLoop (buf : List Nat) :
    byteLoopRead buf = floatLoopRead (buf.map fun s : Nat => ((s : ℚ) - 128) / 128) := by
  rw [byteLoopRead, floatLoopRead, byteFold_eq_floatFold]

/-- C8: the meter tick supports both sample representations, and the 8-bit
branch computes exactly what the float branch computes on the samples
normalized by the map (s - 128) / 128: peak and sum of squares (hence RMS)
agree. -/
theorem meter_byte_normalization (buf : List Nat) :
    tickRead (TimeDomainData.bytes buf) =
      tickRead (TimeDomainData.floats (buf.map fun s : Nat => ((s : ℚ) - 128) / 128)) := by
  simpa [tickRead] using byteLoop_eq_floatLoop buf

lemma runMeterTicks_mem_bounds (ts : List MeterTick) (lo hi : ℚ)
    (hts : ∀ t ∈ ts, lo ≤ t.now ∧ t.now ≤ hi) :
    ∀ l, lo ≤ l → l ≤ hi → lo ≤ runMeterTicks l ts ∧ runMeterTicks l ts ≤ hi := by
  induction ts with
  | nil =>
    intro l h1 h2
    exact ⟨h1, h2⟩
  | cons t ts ih =>
    intro l h1 h2
    have ht := hts t (by simp)
    have hts2 : ∀ u ∈ ts, lo ≤ u.now ∧ u.now ≤ hi := fun u hu => hts u (by simp [hu])
    have hstep : lo ≤ updateLastClip l t ∧ updateLastClip l t ≤ hi := by
      rw [updateLastClip]
      split
      · exact ht
      · exact ⟨h1, h2⟩
    have := ih hts2 (updateLastClip l t) hstep.1 hstep.2
    simpa [runMeterTicks] using this

lemma runMeterTicks_no_clip (ts : List MeterTick) :
    ∀ l, (∀ t ∈ ts, t.peak < 98 / 100) → runMeterTicks l ts = l := by
  induction ts with
  | nil =>
    intro l _
    rfl
  | cons t ts ih =>
    intro l h
    have ht : ¬ 98 / 100 ≤ t.peak := not_le.mpr (h t (by simp))
    show (t :: ts).foldl updateLastClip l = l
    rw [List.foldl_cons, show updateLastClip l t = l from by rw [updateLastClip, if_neg ht]]
    exact ih l fun u hu => h u (by simp [hu])

/-- C6: once a tick observes peak ≥ 0.98 at time T, the computed clipping
indicator is true at every later sampled time below T + 900ms (whatever the
intervening ticks observe), and at or after T + 900ms it computes false
when no newer clip event occurred in between. -/
theorem meter_clip_hold_window (l : ℚ) (tj ti : MeterTick) (mid : List MeterTick)
    (hclip : 98 / 100 ≤ tj.peak)
    (hmid : ∀ t ∈ mid, tj.now ≤ t.now ∧ t.now ≤ ti.now)
    (hij : tj.now ≤ ti.now) :
    (ti.now < tj.now + 900 →
      clipHoldAfter (runMeterTicks (updateLastClip l tj) mid) ti = true) ∧
    ((∀ t ∈ mid, t.peak < 98 / 100) → ti.peak < 98 / 100 → tj.now + 900 ≤ ti.now →
      clipHoldAfter (runMeterTicks (updateLastClip l tj) mid) ti = false) := by
  have hupd : updateLastClip l tj = tj.now := by rw [updateLastClip, if_pos hclip]
  constructor
  · intro hwin
    have hb := runMeterTicks_mem_bounds mid tj.now ti.now hmid (updateLastClip l tj)
      (le_of_eq hupd.symm) (by rw [hupd]; exact hij)
    rw [clipHoldAfter, decide_eq_true_eq, updateLastClip]
    split
    · linarith
    · linarith [hb.1]
  · intro hnomid hni hwin
    rw [hupd, runMeterTicks_no_clip mid tj.now hnomid, clipHoldAfter,
      decide_eq_false_iff_not, updateLastClip, if_neg (not_le.mpr hni), not_lt]
    linarith

/-- C6 witness: a clip at time 0 keeps the indicator true at time 600 and,
with no further clip events, lets it read false at time 900. -/
theorem meter_clip_hold_window_witness :
    clipHoldAfter (runMeterTicks (updateLastClip 0 ⟨0, 98 / 100⟩) []) ⟨600, 0⟩ = true ∧
    clipHoldAfter (runMeterTicks (updateLastClip 0 ⟨0, 98 / 100⟩) []) ⟨900, 0⟩ = false :=
  ⟨(meter_clip_hold_window 0 ⟨0, 98 / 100⟩ ⟨600, 0⟩ [] (le_refl _) (by simp)
      (by norm_num)).1 (by norm_num),
   (meter_clip_hold_window 0 ⟨0, 98 / 100⟩ ⟨900, 0⟩ [] (le_refl _) (by simp)
      (by norm_num)).2 (by simp) (by norm_num) (by norm_num)⟩

lemma floatStep_fst (acc : ℚ × ℚ) (v : ℚ) : (floatStep acc v).1 = max acc.1 |v| := by
  rw [floatStep]
  rcases le_or_lt |v| acc.1 with h | h
  · rw [if_neg (not_lt.mpr h), max_eq_left h]
  · rw [if_pos h, max_eq_right h.le]

lemma floatLoop_bounds (buf : List ℚ) :
    ∀ acc : ℚ × ℚ, (∀ v ∈ buf, |v| ≤ 1) → 0 ≤ acc.1 → acc.1 ≤ 1 → 0 ≤ acc.2 →
      (0 ≤ (buf.foldl floatStep acc).1 ∧ (buf.foldl floatStep acc).1 ≤ 1) ∧
      (0 ≤ (buf.foldl floatStep acc).2 ∧
        (buf.foldl floatStep acc).2 ≤ acc.2 + buf.length) := by
  induction buf with
  | nil =>
    intro acc _ h0 h1 h2
    exact ⟨⟨h0, h1⟩, h2, by simp⟩
  | cons v vs ih =>
    intro acc h h0 h1 h2
    have hv : |v| ≤ 1 := h v (by simp)
    have hsq1 : v * v ≤ 1 := by
      have h2v := abs_le.mp hv
      nlinarith
    have hsq0 : 0 ≤ v * v := mul_self_nonneg v
    rw [List.foldl_cons]
    have hrec := ih (floatStep acc v) (fun u hu => h u (by simp [hu]))
      (by rw [floatStep_fst]; exact le_trans h0 (le_max_left _ _))
      (by rw [floatStep_fst]; exact max_le h1 hv)
      (by rw [show (floatStep acc v).2 = acc.2 + v * v from rfl]; linarith)
    refine ⟨hrec.1, hrec.2.1, ?_⟩
    have hlen : ((v :: vs).length : ℚ) = (vs.length : ℚ) + 1 := by
      rw [List.length_cons]
      push_cast
      ring
    have := hrec.2.2
    rw [show (floatStep acc v).2 = acc.2 + v * v from rfl] at this
    rw [hlen]
    linarith

lemma normByte_bounds (b : Nat) (hb : b ≤ 255) :
    -1 ≤ ((b : ℚ) - 128) / 128 ∧ ((b : ℚ) - 128) / 128 ≤ 127 / 128 := by
  have hb0 : (0 : ℚ) ≤ (b : ℚ) := Nat.cast_nonneg b
  have hb255 : (b : ℚ) ≤ 255 := by exact_mod_cast hb
  constructor
  · rw [le_div_iff₀ (by norm_num : (0 : ℚ) < 128)]
    linarith
  · rw [div_le_div_iff₀ (by norm_num : (0 : ℚ) < 128) (by norm_num : (0 : ℚ) < 128)]
    linarith

/-- C7 counterexample: the rms/peak state the meter exposes is not clamped
to [0, 1]: a float sample of amplitude 2 yields an exposed peak of 2. -/
theorem meter_peak_unclamped_counterexample :
    (floatLoopRead [2]).peak = 2 ∧ ¬ (floatLoopRead [2]).peak ≤ 1 := by
  have h : (floatLoopRead [2]).peak = 2 := by
    norm_num [floatLoopRead, floatStep]
  exact ⟨h, by rw [h]; norm_num⟩

/-- C7 (amended): the clamping the code applies is on the derived meter
percentages — rmsPct and peakPct always land in [0, 100] — while the raw
rms/peak values lie in [0, 1] exactly when the analyser samples lie in
[-1, 1] (which always holds for the 8-bit branch); and formatting a zero
amplitude as dBFS renders the "-∞" string, not a numeric error. -/
theorem meter_clamping_amended (q : ℚ) (buf : List ℚ) (bbuf : List Nat)
    (hb : ∀ v ∈ buf, |v| ≤ 1) (hbb : ∀ b ∈ bbuf, b ≤ 255) :
    (0 ≤ rmsPct q ∧ rmsPct q ≤ 100 ∧ 0 ≤ peakPct q ∧ peakPct q ≤ 100) ∧
    (0 ≤ (floatLoopRead buf).peak ∧ (floatLoopRead buf).peak ≤ 1) ∧
    (0 ≤ meanSquare (floatLoopRead buf).sumSq buf.length ∧
      meanSquare (floatLoopRead buf).sumSq buf.length ≤ 1) ∧
    Real.sqrt ((meanSquare (floatLoopRead buf).sumSq buf.length : ℚ) : ℝ) ≤ 1 ∧
    (0 ≤ (byteLoopRead bbuf).peak ∧ (byteLoopRead bbuf).peak ≤ 1) ∧
    formatDb (ampToDbfs 0) = some "-∞" := by
  have hbounds := floatLoop_bounds buf (0, 0) hb (le_refl 0) (by norm_num) (le_refl 0)
  have hpeak : (floatLoopRead buf).peak = (buf.foldl floatStep (0, 0)).1 := rfl
  have hsum : (floatLoopRead buf).sumSq = (buf.foldl floatStep (0, 0)).2 := rfl
  have hden : (0 : ℚ) < ((max 1 buf.length : Nat) : ℚ) := by
    have : (1 : Nat) ≤ max 1 buf.length := le_max_left _ _
    exact_mod_cast Nat.lt_of_lt_of_le Nat.zero_lt_one this
  have hms0 : 0 ≤ meanSquare (floatLoopRead buf).sumSq buf.length := by
    rw [meanSquare, hsum]
    exact div_nonneg hbounds.2.1 hden.le
  have hms1 : meanSquare (floatLoopRead buf).sumSq buf.length ≤ 1 := by
    rw [meanSquare, hsum, div_le_one hden]
    have hlen : (buf.length : ℚ) ≤ ((max 1 buf.length : Nat) : ℚ) := by
      exact_mod_cast le_max_right 1 buf.length
    have hb2 : (List.foldl floatStep (0, 0) buf).2 ≤ 0 + (buf.length : ℚ) := hbounds.2.2
    linarith
  refine ⟨⟨le_max_left 0 _, max_le (by norm_num) (min_le_left _ _),
      le_max_left 0 _, max_le (by norm_num) (min_le_left _ _)⟩,
    ⟨by rw [hpeak]; exact hbounds.1.1, by rw [hpeak]; exact hbounds.1.2⟩,
    ⟨hms0, hms1⟩, ?_, ?_, rfl⟩
  · have hcast : ((meanSquare (floatLoopRead buf).sumSq buf.length : ℚ) : ℝ) ≤ 1 := by
      exact_mod_cast hms1
    calc Real.sqrt ((meanSquare (floatLoopRead buf).sumSq buf.length : ℚ) : ℝ)
        ≤ Real.sqrt 1 := Real.sqrt_le_sqrt hcast
      _ = 1 := Real.sqrt_one
  · have hmap : ∀ v ∈ bbuf.map fun s : Nat => ((s : ℚ) - 128) / 128, |v| ≤ 1 := by
      intro v hv
      rcases List.mem_map.mp hv with ⟨b, hbm, rfl⟩
      have hn := normByte_bounds b (hbb b hbm)
      rw [abs_le]
      exact ⟨hn.1, le_trans hn.2 (by norm_num)⟩
    have hbf := floatLoop_bounds (bbuf.map fun s : Nat => ((s : ℚ) - 128) / 128) (0, 0)
      hmap (le_refl 0) (by norm_num) (le_refl 0)
    rw [byteLoop_eq_floatLoop bbuf]
    exact ⟨hbf.1.1, hbf.1.2⟩

/-- C7 witness: the amended statement at the concrete inputs q = 5,
float buffer [1], byte buffer [0, 255]. -/
theorem meter_clamping_amended_witness :
    (0 ≤ rmsPct 5 ∧ rmsPct 5 ≤ 100 ∧ 0 ≤ peakPct 5 ∧ peakPct 5 ≤ 100) ∧
    (0 ≤ (floatLoopRead [1]).peak ∧ (floatLoopRead [1]).peak ≤ 1) ∧
    (0 ≤ (byteLoopRead [0, 255]).peak ∧ (byteLoopRead [0, 255]).peak ≤ 1) ∧
    formatDb (ampToDbfs 0) = some "-∞" :=
  ⟨(meter_clamping_amended 5 [1] [0, 255] (by decide) (by decide)).1,
   (meter_clamping_amended 5 [1] [0, 255] (by decide) (by decide)).2.1,
   (meter_clamping_amended 5 [1] [0, 255] (by decide) (by decide)).2.2.2.2.1,
   (meter_clamping_amended 5 [1] [0, 255] (by decide) (by decide)).2.2.2.2.2⟩

/-- C10 counterexample: the peak computed from byte samples does reach 1.0
exactly — at byte value 0 the normalized sample is -1, whose absolute value
1 exceeds the claimed 127/128 bound. -/
theorem byte_peak_reaches_one_counterexample :
    (byteLoopRead [0]).peak = 1 ∧ ¬ (byteLoopRead [0]).peak ≤ 127 / 128 := by
  have h : (byteLoopRead [0]).peak = 1 := by
    norm_num [byteLoopRead, byteStep]
  refine ⟨h, ?_⟩
  rw [h]
  norm_num

/-- C10 (amended): every normalized byte sample lies in [-1, 127/128], so
the byte-path peak — a maximum of absolute values — is at most 1, attains
1.0 exactly at byte 0 (the claim's 127/128 bound holds only for the
positive side, attained at byte 255), and still crosses the 0.98
clip-detection threshold. -/
theorem byte_normalized_range_amended (bbuf : List Nat) (hbb : ∀ b ∈ bbuf, b ≤ 255) :
    (∀ b ∈ bbuf, -1 ≤ ((b : ℚ) - 128) / 128 ∧ ((b : ℚ) - 128) / 128 ≤ 127 / 128) ∧
    (byteLoopRead bbuf).peak ≤ 1 ∧
    (byteLoopRead [0]).peak = 1 ∧
    (byteLoopRead [255]).peak = 127 / 128 ∧
    98 / 100 ≤ (byteLoopRead [255]).peak := by
  have hmap : ∀ v ∈ bbuf.map fun s : Nat => ((s : ℚ) - 128) / 128, |v| ≤ 1 := by
    intro v hv
    rcases List.mem_map.mp hv with ⟨b, hbm, rfl⟩
    have hn := normByte_bounds b (hbb b hbm)
    rw [abs_le]
    exact ⟨hn.1, le_trans hn.2 (by norm_num)⟩
  have hbf := floatLoop_bounds (bbuf.map fun s : Nat => ((s : ℚ) - 128) / 128) (0, 0)
    hmap (le_refl 0) (by norm_num) (le_refl 0)
  have h255 : (byteLoopRead [255]).peak = 127 / 128 := by
    norm_num [byteLoopRead, byteStep]
  refine ⟨fun b hbm => normByte_bounds b (hbb b hbm), ?_, ?_, h255, ?_⟩
  · rw [byteLoop_eq_floatLoop bbuf]
    exact hbf.1.2
  · norm_num [byteLoopRead, byteStep]
  · rw [h255]
    norm_num

/-- C10 witness: the amended statement at the concrete buffer [0, 128, 255]. -/
theorem byte_normalized_range_amended_witness :
    (∀ b ∈ ([0, 128, 255] : List Nat), -1 ≤ ((b : ℚ) - 128) / 128 ∧
      ((b : ℚ) - 128) / 128 ≤ 127 / 128) ∧
    (byteLoopRead [0, 128, 255]).peak ≤ 1 :=
  ⟨(byte_normalized_range_amended [0, 128, 255] (by decide)).1,
   (byte_normalized_range_amended [0, 128, 255] (by decide)).2.1⟩
